import Mathlib

/-!
Verification development for pk-verify, a tool that verifies all blobs of a
perkeep blobstore.  The development shallowly embeds the two source files
(`main.go`, `loader.go`):

* the concurrent producer/consumer verification pipeline of `main` — since the
  program runs exactly one producer that emits blobs in order into a channel,
  closes it, and exactly one consumer that drains it, the observable behaviour
  of a run is a pure function of the emitted blob sequence and the producer's
  final error, which is how it is embedded here;
* `parseLowLevelConfig` / `deleteUnknownFields` together with the semantics of
  the external `go4.org/jsonconfig` accessors they use, modelled at their
  interface boundary;
* the `Loader` storage resolver of `loader.go`, whose non-reentrant
  `sync.Mutex` is modelled by an explicit `locked` flag (a second `Lock` of a
  held `sync.Mutex` from the same goroutine blocks forever).
-/

set_option autoImplicit false

/-- A blob as the pipeline sees it: an identifier (its blobref, rendered as a
string) and whether `blob.ValidContents` succeeds, i.e. whether the stored
bytes hash to the claimed identifier.  The core never inspects contents beyond
this check, so the boolean is the faithful interface-level embedding. -/
structure Blob where
  ref : String
  valid : Bool
deriving DecidableEq, Repr

/-- Things `main` prints to standard output during the verification loop and
at its end.  Each constructor corresponds to exactly one print statement in
`main.go`, carrying the exact formatted text:
`invalidRef` is the `fmt.Println("found invalid blob:", blob.Ref())` line,
`progress` a `fmt.Printf(..., "\r")` progress update,
`summaryLine` the final `fmt.Printf(..., "\n")` summary. -/
inductive OutputItem where
  | invalidRef : String → OutputItem
  | progress : String → OutputItem
  | summaryLine : String → OutputItem
deriving DecidableEq, Repr

/-- The `plural` helper of main.go: `""` for 1, `"s"` otherwise. -/
def plural (n : Nat) : String :=
  if n = 1 then "" else "s"

/-- State of the consumer loop of `main`: the `valid` and `invalid` tallies
and the standard-output items emitted so far, in order. -/
structure LoopState where
  valid : Nat
  invalid : Nat
  output : List OutputItem
deriving DecidableEq, Repr

/-- One iteration of the consumer loop of `main` (main.go lines 219-231):
classify the blob, update the tallies, print the ref of an invalid blob, then
print a progress line reflecting the updated tallies. -/
def processBlob (st : LoopState) (b : Blob) : LoopState :=
  let st :=
    if b.valid then
      { st with valid := st.valid + 1 }
    else
      { st with
          invalid := st.invalid + 1,
          output := st.output ++ [.invalidRef ("found invalid blob: " ++ b.ref)] }
  let line :=
    if st.invalid = 0 then
      " verified " ++ toString st.valid ++ " blob" ++ plural st.valid ++ "...\r"
    else
      " " ++ toString st.invalid ++ " invalid blob" ++ plural st.invalid ++ ", "
        ++ toString st.valid ++ " valid blob" ++ plural st.valid ++ "\r"
  { st with output := st.output ++ [.progress line] }

/-- The final summary line of `main` (main.go lines 232-236). -/
def summaryText (st : LoopState) : String :=
  if st.invalid = 0 then
    "verified all " ++ toString st.valid ++ " blobs"
  else
    "CORRUPTION DETECTED: " ++ toString st.invalid ++ " of "
      ++ toString (st.valid + st.invalid)
      ++ " blobs failed validation. Their refs are listed above."

/-- Result of a whole run of the verification part of `main`: final tallies,
standard output, standard error, and the process exit status. -/
structure RunResult where
  valid : Nat
  invalid : Nat
  output : List OutputItem
  stderr : List String
  exitCode : Nat
deriving DecidableEq, Repr

/-- The verification phase of `main` (main.go lines 212-248) as a function of
the blob sequence the streamer emits and the streamer's final error
(`wg.Err()`), which the single producer/single consumer channel structure
makes the only observable inputs: the consumer drains every emitted blob in
order (the channel is closed only after `StreamBlobs` returns), prints the
summary, and only then checks the streaming error (exit 1); otherwise it
exits 2 when any blob was invalid and 0 when none was. -/
def runVerify (blobs : List Blob) (streamErr : Option String) : RunResult :=
  let st := blobs.foldl processBlob ⟨0, 0, []⟩
  let out := st.output ++ [.summaryLine (summaryText st)]
  match streamErr with
  | some e =>
      { valid := st.valid, invalid := st.invalid, output := out,
        stderr := ["pk-verify: error while streaming blobs: " ++ e],
        exitCode := 1 }
  | none =>
      { valid := st.valid, invalid := st.invalid, output := out,
        stderr := [],
        exitCode := if st.invalid > 0 then 2 else 0 }


/-- The strings.HasPrefix test of Go, embedded at the character level (the
prefixes tested in this program — `_` and `storage-` — are ASCII, where Go's
byte-level test and the character-level test agree). -/
def strStartsWith (s pre : String) : Bool :=
  pre.data.isPrefixOf s.data

/-- Character-level drop on strings, used to embed strings.TrimPrefix. -/
def strDrop (s : String) (n : Nat) : String :=
  ⟨s.data.drop n⟩

/-- A JSON-like structured value, the input language of the configuration
translator (`jsonconfig.Obj` values are such trees). -/
inductive JSON where
  | str : String → JSON
  | num : Int → JSON
  | boolean : Bool → JSON
  | null : JSON
  | arr : List JSON → JSON
  | obj : List (String × JSON) → JSON

/-- Modelled from the spec: a `go4.org/jsonconfig.Obj`, an external collaborator
specified at its interface boundary.  It is a JSON object (`entries`, an
association list keyed by field name) that additionally tracks which keys the
`Required*` accessors have consumed (`known`) and the accessor errors
accumulated so far (`errs`); the Go library keeps this bookkeeping under the
reserved in-map keys `_knownkeys` and `_errors`, which here are separate
fields. -/
structure Obj where
  entries : List (String × JSON)
  known : List String
  errs : List String

/-- Wrap a JSON object's fields as a fresh `Obj` with no consumed keys and no
errors. -/
def Obj.ofJSON (l : List (String × JSON)) : Obj :=
  ⟨l, [], []⟩

/-- Field lookup in the underlying JSON object. -/
def Obj.lookupKey (o : Obj) (k : String) : Option JSON :=
  List.lookup k o.entries

/-- Record a key as consumed (the library's `noteKnownKey`). -/
def Obj.note (o : Obj) (k : String) : Obj :=
  { o with known := k :: o.known }

/-- Record an accessor error (the library's `appendError`). -/
def Obj.addErr (o : Obj) (e : String) : Obj :=
  { o with errs := o.errs ++ [e] }

/-- Modelled from the spec: the `RequiredObject` accessor of jsonconfig.  It
consumes the key and returns the object stored there as a fresh `Obj`; absence
or a non-object value records an error on the receiver — "its absence or wrong
type is a fatal `ConfigError`" — and yields an empty object.  Returns the pair
(child object, updated receiver). -/
def Obj.RequiredObject (o : Obj) (k : String) : Obj × Obj :=
  let o := o.note k
  match o.lookupKey k with
  | none => (Obj.ofJSON [], o.addErr ("Missing required config key \"" ++ k ++ "\" (object)"))
  | some (.obj l) => (Obj.ofJSON l, o)
  | some _ => (Obj.ofJSON [], o.addErr ("Expected config key \"" ++ k ++ "\" to be an object"))

/-- Modelled from the spec: the `RequiredString` accessor of jsonconfig, the
string-typed analogue of `Obj.RequiredObject`. -/
def Obj.RequiredString (o : Obj) (k : String) : String × Obj :=
  let o := o.note k
  match o.lookupKey k with
  | none => ("", o.addErr ("Missing required config key \"" ++ k ++ "\" (string)"))
  | some (.str s) => (s, o)
  | some _ => ("", o.addErr ("Expected config key \"" ++ k ++ "\" to be a string"))

/-- Modelled from the spec: `UnknownKeys` of jsonconfig — the fields of the
object "not explicitly consumed" yet, in document order. -/
def Obj.UnknownKeys (o : Obj) : List String :=
  (o.entries.map Prod.fst).filter (fun k => !(o.known.contains k))

/-- Modelled from the spec: `Validate` of jsonconfig, the strict validation
step — it fails naming the first remaining unconsumed field (keys with a
leading underscore are permitted as comments and skipped), and otherwise
reports the accumulated accessor errors, if any. -/
def Obj.Validate (o : Obj) : Option String :=
  match o.UnknownKeys.filter (fun k => !(strStartsWith k "_")) with
  | k :: _ => some ("Unknown key \"" ++ k ++ "\"")
  | [] =>
    match o.errs with
    | [] => none
    | [e] => some e
    | es => some ("Multiple errors: " ++ String.intercalate ", " es)

/-- Converted part of a low-level perkeep config: the `handler` name with the
`storage-` marker removed, and the `handlerArgs` object (main.go 112-115). -/
structure StorageConfig where
  StorageHandler : String
  StorageHandlerArgs : Obj

/-- The strict internal configuration model (main.go 108-111): prefix →
storage handler spec, as an association list in document order (Go uses a map;
the spec requires the result to be independent of iteration order). -/
structure LowLevelConfig where
  Prefixes : List (String × StorageConfig)

/-- deleteUnknownFields (main.go 118-124): delete every not-yet-consumed field
of the object, "which has the effect of allowing the object to pass validation
even if it contained unknown fields". -/
def deleteUnknownFields (o : Obj) : Obj :=
  { o with entries := o.entries.filter (fun kv => o.known.contains kv.1) }

/-- The strings.TrimPrefix call of main.go line 142: remove a leading
`storage-` marker if present, else return the name unchanged. -/
def trimStorage (name : String) : String :=
  if strStartsWith name "storage-" then strDrop name 8 else name

/-- Body of the per-prefix work of parseLowLevelConfig (main.go 140-152) after
the prefix's value object has been fetched: read `handler`; in the
`storage-` case record the entry and consume `handlerArgs`, otherwise delete
all unknown fields of the entry; then strictly validate the entry. -/
def processEntry (pfx : String) (handler : Obj) (res : List (String × StorageConfig)) :
    Except String (List (String × StorageConfig)) :=
  let p1 := handler.RequiredString "handler"
  let name := p1.1
  let handler := p1.2
  let storageName := trimStorage name
  let p2 : Obj × List (String × StorageConfig) :=
    if storageName = name then
      (deleteUnknownFields handler, res)
    else
      let p3 := handler.RequiredObject "handlerArgs"
      (p3.2, res ++ [(pfx, ⟨storageName, p3.1⟩)])
  match p2.1.Validate with
  | some e => .error ("In prefixes[\"" ++ pfx ++ "\"]: " ++ e)
  | none => .ok p2.2

/-- One iteration of the `for prefix := range prefixes` loop of
parseLowLevelConfig (main.go 136-154): keys starting with `_` are skipped
outright; otherwise the prefix's value is fetched with `RequiredObject` and
processed. -/
def parseStep (pfx : String) (prefixes : Obj) (res : List (String × StorageConfig)) :
    Except String (Obj × List (String × StorageConfig)) :=
  if strStartsWith pfx "_" then .ok (prefixes, res)
  else
    let p := prefixes.RequiredObject pfx
    match processEntry pfx p.1 res with
    | .error e => .error e
    | .ok res => .ok (p.2, res)

/-- The whole prefix loop of parseLowLevelConfig, iterating over the given key
list (the Go map iteration order is unspecified; the embedding iterates in
document order). -/
def parseLoop : List String → Obj → List (String × StorageConfig) →
    Except String (Obj × List (String × StorageConfig))
  | [], prefixes, res => .ok (prefixes, res)
  | k :: ks, prefixes, res =>
    match parseStep k prefixes res with
    | .error e => .error e
    | .ok st => parseLoop ks st.1 st.2

/-- parseLowLevelConfig (main.go 130-162): fetch the `prefixes` object, delete
all other top-level fields, run the per-prefix loop, then strictly validate
the top-level object and the `prefixes` object. -/
def parseLowLevelConfig (o : Obj) : Except String LowLevelConfig :=
  let p := o.RequiredObject "prefixes"
  let prefixes := p.1
  let topObj := deleteUnknownFields p.2
  match parseLoop (prefixes.entries.map Prod.fst) prefixes [] with
  | .error e => .error e
  | .ok st =>
    match topObj.Validate with
    | some e => .error e
    | none =>
      match st.1.Validate with
      | some e => .error ("In the \"prefixes\" map: " ++ e)
      | none => .ok ⟨st.2⟩


/-- The Loader of loader.go (lines 21-25).  `locked` models the non-reentrant
`sync.Mutex` field `mu` (a second `Lock` of a held `sync.Mutex` from the same
goroutine blocks forever; the program is single-threaded, so a reentrant
acquisition can never be released by another thread).  `sto` is the
prefix-to-backend cache; backend instances are identified by the `Nat` handed
out at their construction.  `conf` stands for the `*LowLevelConfig` field:
for each configured prefix it gives the list of other prefixes whose storage
the backend's constructor resolves through the loader — modelled from the
spec: "Construction of a backend MAY itself call back into `resolve` for
other prefixes it depends on" (e.g. blobpacked resolving its `smallBlobs` and
`largeBlobs` sub-prefixes).  `constructed` logs, in order, each prefix whose
backend construction (`blobserver.CreateStorage`) was actually run, and
`nextId` supplies distinct instance identities. -/
structure Loader where
  locked : Bool
  sto : List (String × Nat)
  conf : List (String × List String)
  constructed : List String
  nextId : Nat
deriving DecidableEq, Repr

deriving instance DecidableEq for Except

/-- Outcome of a call into the loader: a normal return (a value or a Go-style
error, together with the loader state on return), a permanent block on the
loader's mutex, or exhaustion of the recursion fuel (never a real outcome;
fuel only makes the recursion structural, and every theorem below either
quantifies over it or supplies enough of it). -/
inductive GSResult where
  | ret : Except String Nat → Loader → GSResult
  | deadlock : GSResult
  | fuelOut : GSResult
deriving DecidableEq, Repr

/-- A pending call into the loader/backend-construction recursion: either a
`Loader.GetStorage` call or a `blobserver.CreateStorage` run for a prefix with
the given dependency prefixes still to resolve. -/
inductive LCall where
  | get : Loader → String → LCall
  | create : Loader → String → List String → LCall

/-- The mutual recursion between `Loader.GetStorage` (loader.go 64-83) and
backend construction, embedded as a single fuel-indexed step function so that
the recursion is structural.

The `.get` case is Loader.GetStorage: acquire `mu` — blocking forever if it is
already held, since `sync.Mutex` is not reentrant and the program is
single-threaded — return a cached instance if present, otherwise look the
prefix up in the configuration and run CreateStorage, caching the result.
The deferred unlock runs only when GetStorage itself returns, so the mutex
stays held across the whole CreateStorage call.

The `.create` case is modelled from the spec: `blobserver.CreateStorage`, an
external factory that constructs the backend for a prefix, first resolving
each dependency prefix through the loader it was handed ("passing the
resolver itself as a dependency-provider"); a dependency failure fails the
construction, and a successful construction is logged in `constructed` and
yields a fresh instance identity. -/
def loaderRun : Nat → LCall → GSResult
  | 0, _ => .fuelOut
  | Nat.succ fuel, .get ld pfx =>
    if ld.locked then .deadlock
    else
      let ld1 := { ld with locked := true }
      match List.lookup pfx ld1.sto with
      | some id => .ret (.ok id) { ld1 with locked := false }
      | none =>
        match List.lookup pfx ld1.conf with
        | none =>
            .ret (.error ("no storage configuration found for this prefix: \"" ++ pfx ++ "\""))
              { ld1 with locked := false }
        | some deps =>
          match loaderRun fuel (.create ld1 pfx deps) with
          | .deadlock => .deadlock
          | .fuelOut => .fuelOut
          | .ret (.error e) ld2 => .ret (.error e) { ld2 with locked := false }
          | .ret (.ok id) ld2 =>
              .ret (.ok id) { ld2 with sto := (pfx, id) :: ld2.sto, locked := false }
  | Nat.succ _fuel, .create ld pfx [] =>
      .ret (.ok ld.nextId)
        { ld with nextId := ld.nextId + 1, constructed := ld.constructed ++ [pfx] }
  | Nat.succ fuel, .create ld pfx (d :: ds) =>
    match loaderRun fuel (.get ld d) with
    | .deadlock => .deadlock
    | .fuelOut => .fuelOut
    | .ret (.error e) ld2 => .ret (.error e) ld2
    | .ret (.ok _) ld2 => loaderRun fuel (.create ld2 pfx ds)

/-- Loader.GetStorage (loader.go 64-83); see `loaderRun`. -/
def Loader.GetStorage (fuel : Nat) (ld : Loader) (pfx : String) : GSResult :=
  loaderRun fuel (.get ld pfx)

/-- Modelled from the spec: `blobserver.CreateStorage` for the backend
configured at `pfx` with dependency prefixes `deps`; see `loaderRun`. -/
def Loader.createStorage (fuel : Nat) (ld : Loader) (pfx : String) (deps : List String) : GSResult :=
  loaderRun fuel (.create ld pfx deps)

/-- Loader.SetStorage (loader.go 55-62): store a backend under a prefix (used
by backends that self-register during construction).  The Go method briefly
locks `mu` around a map assignment; embedded as the state update it performs
when the mutex is free. -/
def Loader.SetStorage (ld : Loader) (pfx : String) (s : Nat) : Loader :=
  { ld with sto := (pfx, s) :: ld.sto }

/-- Loader.GetHandlerType (loader.go 45-48): logs "GetHandlerType called but
not implemented." and returns the empty string, whatever the prefix and
whatever the loader state. -/
def Loader.GetHandlerType (_ld : Loader) (_pfx : String) : String :=
  ""

/-- Loader.GetHandler (loader.go 50-53): logs "GetHandler called but not
implemented." and returns `(nil, errors.New("doesn't exist"))`, whatever the
prefix and whatever the loader state. -/
def Loader.GetHandler (_ld : Loader) (_pfx : String) : Except String Unit :=
  .error "doesn't exist"

/-- Outcome of calling a Go function that may panic instead of returning. -/
inductive PanicOr (α : Type) where
  | panics : String → PanicOr α
  | returns : α → PanicOr α
deriving DecidableEq, Repr

/-- Loader.FindHandlerByType (loader.go 29-31): `panic("NOIMPL")`.  The Go
signature returns `(prefix string, handler interface, err error)`, modelled
as an opaque triple that is in fact never produced. -/
def Loader.FindHandlerByType (_ld : Loader) (_handlerType : String) :
    PanicOr (String × Option Unit × Option String) :=
  .panics "NOIMPL"

/-- Loader.AllHandlers (loader.go 33-35): `panic("NOIMPL")`.  The Go signature
returns `(map from prefix to handler type, map from prefix to handler)`. -/
def Loader.AllHandlers (_ld : Loader) :
    PanicOr (List (String × String) × List (String × Unit)) :=
  .panics "NOIMPL"

/-- Loader.MyPrefix (loader.go 37-39): a fixed placeholder. -/
def Loader.MyPrefix (_ld : Loader) : String :=
  "/lies/"

/-- Loader.BaseURL (loader.go 41-43): a fixed placeholder. -/
def Loader.BaseURL (_ld : Loader) : String :=
  "http://localhost:1234"

/-- Number of blobs of a stream whose contents validate. -/
def countValid (blobs : List Blob) : Nat :=
  (blobs.filter (fun b => b.valid)).length

/-- Number of blobs of a stream whose contents fail validation. -/
def countInvalid (blobs : List Blob) : Nat :=
  (blobs.filter (fun b => !b.valid)).length

/-- The texts of the `found invalid blob:` lines of an output, in order. -/
def invalidRefTexts (out : List OutputItem) : List String :=
  out.filterMap (fun item =>
    match item with
    | .invalidRef s => some s
    | _ => none)

/-- The texts of the progress lines of an output, in order. -/
def progressTexts (out : List OutputItem) : List String :=
  out.filterMap (fun item =>
    match item with
    | .progress s => some s
    | _ => none)

/-- The progress line printed when the tallies are `i` invalid and `v` valid:
while no invalid blob has been seen, `" verified <v> blob(s)...\r"`; from the
first invalid blob on, `" <i> invalid blob(s), <v> valid blob(s)\r"` — the
latter with no trailing ellipsis. -/
def progressLine (i v : Nat) : String :=
  if i = 0 then
    " verified " ++ toString v ++ " blob" ++ plural v ++ "...\r"
  else
    " " ++ toString i ++ " invalid blob" ++ plural i ++ ", "
      ++ toString v ++ " valid blob" ++ plural v ++ "\r"

/-- Closed form of the standard output the consumer loop appends while
processing a blob list, starting from tallies `v` valid / `i` invalid: for
each blob, the `found invalid blob:` line if it fails validation, then a
progress line reflecting the updated tallies. -/
def outputSpec : Nat → Nat → List Blob → List OutputItem
  | _, _, [] => []
  | v, i, b :: bs =>
    let v2 := if b.valid then v + 1 else v
    let i2 := if b.valid then i else i + 1
    (if b.valid then [] else [.invalidRef ("found invalid blob: " ++ b.ref)])
      ++ .progress (progressLine i2 v2) :: outputSpec v2 i2 bs

/-- The per-blob progress-line texts, as the claim (amended: no ellipsis once
an invalid blob has been seen) states them: after each blob, the line renders
the tallies current at that point. -/
def progressSpec : Nat → Nat → List Blob → List String
  | _, _, [] => []
  | v, i, b :: bs =>
    let v2 := if b.valid then v + 1 else v
    let i2 := if b.valid then i else i + 1
    progressLine i2 v2 :: progressSpec v2 i2 bs

/-- Whether a progress string ends in an ellipsis followed by the carriage
return, decided at the character level. -/
def endsWithEllipsisCR (s : String) : Bool :=
  ("...\r").data.isSuffixOf s.data

theorem processBlob_eq (st : LoopState) (b : Blob) :
    processBlob st b =
      if b.valid then
        ⟨st.valid + 1, st.invalid,
          st.output ++ [.progress (progressLine st.invalid (st.valid + 1))]⟩
      else
        ⟨st.valid, st.invalid + 1,
          st.output ++ [.invalidRef ("found invalid blob: " ++ b.ref),
                        .progress (progressLine (st.invalid + 1) st.valid)]⟩ := by
  cases hb : b.valid <;> simp [processBlob, hb, progressLine]

theorem foldl_processBlob_eq (blobs : List Blob) (st : LoopState) :
    blobs.foldl processBlob st =
      ⟨st.valid + countValid blobs, st.invalid + countInvalid blobs,
        st.output ++ outputSpec st.valid st.invalid blobs⟩ := by
  induction blobs generalizing st with
  | nil => simp [countValid, countInvalid, outputSpec]
  | cons b bs ih =>
    cases hb : b.valid with
    | true =>
      simp only [List.foldl_cons, processBlob_eq, hb, if_true, ih, outputSpec,
        countValid, countInvalid, List.filter, hb]
      simp [hb, List.append_assoc, Nat.add_assoc, Nat.add_comm 1 _]
    | false =>
      simp only [List.foldl_cons, processBlob_eq, hb, if_false, ih, outputSpec,
        countValid, countInvalid, List.filter, hb]
      simp [hb, List.append_assoc]
      omega

theorem invalidRefTexts_nil : invalidRefTexts [] = [] := rfl

theorem progressTexts_nil : progressTexts [] = [] := rfl

theorem invalidRefTexts_summary (s : String) : invalidRefTexts [.summaryLine s] = [] := rfl

theorem progressTexts_summary (s : String) : progressTexts [.summaryLine s] = [] := rfl

theorem invalidRefTexts_append (a b : List OutputItem) :
    invalidRefTexts (a ++ b) = invalidRefTexts a ++ invalidRefTexts b := by
  simp [invalidRefTexts]

theorem progressTexts_append (a b : List OutputItem) :
    progressTexts (a ++ b) = progressTexts a ++ progressTexts b := by
  simp [progressTexts]

theorem invalidRefTexts_outputSpec (blobs : List Blob) (v i : Nat) :
    invalidRefTexts (outputSpec v i blobs) =
      (blobs.filter (fun b => !b.valid)).map (fun b => "found invalid blob: " ++ b.ref) := by
  induction blobs generalizing v i with
  | nil => simp [outputSpec, invalidRefTexts]
  | cons b bs ih =>
    cases hb : b.valid <;>
      simpa [outputSpec, hb, invalidRefTexts, List.filter] using ih _ _

theorem progressTexts_outputSpec (blobs : List Blob) (v i : Nat) :
    progressTexts (outputSpec v i blobs) = progressSpec v i blobs := by
  induction blobs generalizing v i with
  | nil => simp [outputSpec, progressSpec, progressTexts]
  | cons b bs ih =>
    cases hb : b.valid <;>
      simpa [outputSpec, hb, progressSpec, progressTexts] using ih _ _

theorem countValid_add_countInvalid (blobs : List Blob) :
    countValid blobs + countInvalid blobs = blobs.length := by
  induction blobs with
  | nil => rfl
  | cons b bs ih =>
    cases hb : b.valid <;> simp [countValid, countInvalid, List.filter, hb] at * <;> omega

/-- Claim C1 (counterexample): in a run where one blob fails content
validation and a streaming error also occurred, the process exits with
status 1, not 2 — the streaming-error check at main.go 240-243 runs before
the `invalid > 0` check at main.go 245-247. -/
theorem exit_code_stream_error_overrides_corruption_cex :
    (runVerify [⟨"sha224-00", false⟩] (some "read failed")).invalid = 1 ∧
    (runVerify [⟨"sha224-00", false⟩] (some "read failed")).exitCode = 1 := by
  decide

/-- Claim C1 (amended): any count of content mismatches yields exit status 2
provided no streaming error occurred; when a streaming error occurred, the
process exits with status 1 even if blobs failed validation (the fatal error
outranks the corruption outcome). -/
theorem exit_code_policy :
    (∀ blobs : List Blob,
      0 < (runVerify blobs none).invalid → (runVerify blobs none).exitCode = 2) ∧
    (∀ (blobs : List Blob) (e : String), (runVerify blobs (some e)).exitCode = 1) := by
  constructor
  · intro blobs h
    simp only [runVerify] at h ⊢
    rw [if_pos h]
  · intro blobs e
    rfl

/-- Claim C1 (witness): the amended exit-code policy applied to a concrete
run with one invalid blob and no streaming error. -/
theorem exit_code_policy_witness :
    (runVerify [⟨"sha224-00", false⟩] none).exitCode = 2 :=
  exit_code_policy.1 [⟨"sha224-00", false⟩] (by decide)

/-- Claim C4: if the producer's stream fails after emitting M blobs that all
validate, the run still drains and tallies all M blobs, reports valid = M and
invalid = 0, prints the "verified all M blobs" summary as the final output
line, surfaces the streaming error on standard error, and exits with
status 1 — the accumulated tallies are never discarded. -/
theorem stream_error_preserves_tallies (blobs : List Blob) (e : String)
    (h : ∀ b ∈ blobs, b.valid = true) :
    (runVerify blobs (some e)).valid = blobs.length ∧
    (runVerify blobs (some e)).invalid = 0 ∧
    (runVerify blobs (some e)).output.getLast? =
      some (.summaryLine ("verified all " ++ toString blobs.length ++ " blobs")) ∧
    (runVerify blobs (some e)).stderr =
      ["pk-verify: error while streaming blobs: " ++ e] ∧
    (runVerify blobs (some e)).exitCode = 1 := by
  have hv : countValid blobs = blobs.length := by
    unfold countValid
    rw [List.filter_eq_self.mpr (fun b hb => by simp [h b hb])]
  have hi : countInvalid blobs = 0 := by
    unfold countInvalid
    rw [List.length_eq_zero]
    exact List.filter_eq_nil_iff.mpr (fun b hb => by simp [h b hb])
  simp [runVerify, foldl_processBlob_eq, hv, hi, summaryText]

/-- Claim C4 (witness): the theorem applied to a run whose producer fails
after two valid blobs. -/
theorem stream_error_preserves_tallies_witness :
    (runVerify [⟨"sha224-00", true⟩, ⟨"sha224-01", true⟩] (some "io fault")).valid = 2 ∧
    (runVerify [⟨"sha224-00", true⟩, ⟨"sha224-01", true⟩] (some "io fault")).invalid = 0 ∧
    (runVerify [⟨"sha224-00", true⟩, ⟨"sha224-01", true⟩] (some "io fault")).output.getLast? =
      some (.summaryLine ("verified all " ++ toString 2 ++ " blobs")) ∧
    (runVerify [⟨"sha224-00", true⟩, ⟨"sha224-01", true⟩] (some "io fault")).stderr =
      ["pk-verify: error while streaming blobs: " ++ "io fault"] ∧
    (runVerify [⟨"sha224-00", true⟩, ⟨"sha224-01", true⟩] (some "io fault")).exitCode = 1 :=
  stream_error_preserves_tallies [⟨"sha224-00", true⟩, ⟨"sha224-01", true⟩] "io fault"
    (by decide)

/-- Claim C5: for a finite stream of N blobs of which K fail content
validation, with no streaming error, the pipeline processes all N blobs
without aborting (valid + invalid = N), finishes with valid = N - K and
invalid = K, prints the identifier of each of the K invalid blobs on its own
line in stream order, and exits with status 0 when K = 0 and 2 otherwise. -/
theorem pipeline_completeness (blobs : List Blob) :
    (runVerify blobs none).valid + (runVerify blobs none).invalid = blobs.length ∧
    (runVerify blobs none).valid = blobs.length - countInvalid blobs ∧
    (runVerify blobs none).invalid = countInvalid blobs ∧
    invalidRefTexts (runVerify blobs none).output =
      (blobs.filter (fun b => !b.valid)).map (fun b => "found invalid blob: " ++ b.ref) ∧
    (runVerify blobs none).exitCode = (if countInvalid blobs = 0 then 0 else 2) := by
  have hc := countValid_add_countInvalid blobs
  refine ⟨?_, ?_, ?_, ?_, ?_⟩
  · simp [runVerify, foldl_processBlob_eq]
    omega
  · simp [runVerify, foldl_processBlob_eq]
    omega
  · simp [runVerify, foldl_processBlob_eq]
  · simp [runVerify, foldl_processBlob_eq, invalidRefTexts_append,
      invalidRefTexts_outputSpec, invalidRefTexts_summary]
  · rcases Nat.eq_zero_or_pos (countInvalid blobs) with h0 | h0
    · simp [runVerify, foldl_processBlob_eq, h0]
    · simp [runVerify, foldl_processBlob_eq, Nat.pos_iff_ne_zero.mp h0, h0]

/-- Claim C7 (counterexample): the progress line printed after the first
invalid blob is " 1 invalid blob, 0 valid blobs\r", which does not end in an
ellipsis — while the valid-only progress line does.  The claim's format
" <I> invalid blob(s), <N> valid blob(s)..." is therefore wrong about the
trailing ellipsis. -/
theorem invalid_progress_line_no_ellipsis_cex :
    progressTexts (runVerify [⟨"sha224-00", false⟩] none).output =
      [" 1 invalid blob, 0 valid blobs\r"] ∧
    endsWithEllipsisCR " 1 invalid blob, 0 valid blobs\r" = false ∧
    progressTexts (runVerify [⟨"sha224-00", true⟩] none).output =
      [" verified 1 blob...\r"] ∧
    endsWithEllipsisCR " verified 1 blob...\r" = true := by
  decide

/-- Claim C7 (amended): the per-blob progress lines are exactly
`progressSpec 0 0 blobs`: " verified <N> blob(s)...\r" (ellipsis) while no
invalid blob has been seen, and " <I> invalid blob(s), <N> valid blob(s)\r"
(no ellipsis) from the first invalid blob onward, each reflecting the
tallies current after its blob (see `progressLine`). -/
theorem progress_lines_spec (blobs : List Blob) (streamErr : Option String) :
    progressTexts (runVerify blobs streamErr).output = progressSpec 0 0 blobs := by
  cases streamErr <;>
    simp [runVerify, foldl_processBlob_eq, progressTexts_append,
      progressTexts_outputSpec, progressTexts_summary]

/-- Claim C2 (code bug): with the acyclic configuration in which the backend
at "/bs/" resolves "/bs-packed/" during its construction, a GetStorage("/bs/")
call on a fresh loader deadlocks: GetStorage holds `mu` across the
CreateStorage call (loader.go 65-66 and 77), so the nested
GetStorage("/bs-packed/") made from within construction blocks forever on the
non-reentrant mutex.  The second conjunct shows the identical construction
succeeds when CreateStorage is invoked with the mutex free — the way `main`
invokes it for the top-level prefix — so the deadlock is caused by the held
lock, not by the configuration. -/
theorem nested_getStorage_reentrant_deadlock :
    Loader.GetStorage 10
        ⟨false, [], [("/bs/", ["/bs-packed/"]), ("/bs-packed/", [])], [], 0⟩ "/bs/" =
      .deadlock ∧
    Loader.createStorage 10
        ⟨false, [], [("/bs/", ["/bs-packed/"]), ("/bs-packed/", [])], [], 0⟩
        "/bs/" ["/bs-packed/"] =
      .ret (.ok 1)
        ⟨false, [("/bs-packed/", 0)], [("/bs/", ["/bs-packed/"]), ("/bs-packed/", [])],
          ["/bs-packed/", "/bs/"], 2⟩ := by
  decide

theorem getStorage_ok_state (fuel : Nat) (ld st2 : Loader) (pfx : String) (id : Nat)
    (h : Loader.GetStorage fuel ld pfx = .ret (.ok id) st2) :
    st2.locked = false ∧ List.lookup pfx st2.sto = some id := by
  cases fuel with
  | zero => simp [Loader.GetStorage, loaderRun] at h
  | succ n =>
    rw [Loader.GetStorage] at h
    simp only [loaderRun] at h
    split at h
    · simp at h
    · split at h
      · simp only [GSResult.ret.injEq, Except.ok.injEq] at h
        obtain ⟨rfl, rfl⟩ := h
        refine ⟨rfl, ?_⟩
        simpa using by assumption
      · split at h
        · simp at h
        · split at h
          · simp at h
          · simp at h
          · simp at h
          · simp only [GSResult.ret.injEq, Except.ok.injEq] at h
            obtain ⟨rfl, rfl⟩ := h
            exact ⟨rfl, by simp [List.lookup]⟩

/-- Claim C6: a successful GetStorage(p) that returned instance `id` leaving
the loader in state `st2` is idempotent — a second sequential GetStorage(p)
call (any nonzero fuel) returns the same instance `id` and leaves the whole
loader state unchanged, including the `constructed` log: the second call is
answered from the cache and backend construction is never re-run. -/
theorem getStorage_idempotent (fuel1 fuel2 : Nat) (ld st2 : Loader) (pfx : String) (id : Nat)
    (h : Loader.GetStorage fuel1 ld pfx = .ret (.ok id) st2) :
    Loader.GetStorage (fuel2 + 1) st2 pfx = .ret (.ok id) st2 := by
  obtain ⟨hl, hs⟩ := getStorage_ok_state fuel1 ld st2 pfx id h
  cases st2 with
  | mk locked sto conf constructed nextId =>
    simp only at hl hs
    subst hl
    rw [Loader.GetStorage, loaderRun]
    simp [hs]

/-- Claim C6 (witness): idempotence applied to the concrete loader state
produced by a successful first GetStorage("/bs-loose/") call. -/
theorem getStorage_idempotent_witness :
    Loader.GetStorage 4
        ⟨false, [("/bs-loose/", 0)], [("/bs-loose/", [])], ["/bs-loose/"], 1⟩ "/bs-loose/" =
      .ret (.ok 0) ⟨false, [("/bs-loose/", 0)], [("/bs-loose/", [])], ["/bs-loose/"], 1⟩ :=
  getStorage_idempotent 3 3 ⟨false, [], [("/bs-loose/", [])], [], 0⟩
    ⟨false, [("/bs-loose/", 0)], [("/bs-loose/", [])], ["/bs-loose/"], 1⟩ "/bs-loose/" 0
    (by decide)

/-- Claim C9: FindHandlerByType and AllHandlers panic with "NOIMPL" on every
invocation, for every loader state and argument; neither ever returns a
value, so neither can silently return an empty result. -/
theorem findHandlerByType_allHandlers_panic :
    (∀ (ld : Loader) (t : String), Loader.FindHandlerByType ld t = .panics "NOIMPL") ∧
    (∀ ld : Loader, Loader.AllHandlers ld = .panics "NOIMPL") :=
  ⟨fun _ _ => rfl, fun _ => rfl⟩

/-- Claim C10: GetHandlerType returns the empty string and GetHandler returns
`(nil, error)` for every prefix and every loader state — in particular for a
state in which a backend was stored under that very prefix by SetStorage
(third conjunct: the cache really does hold the backend there): these two
lookups never consult the cache and silently report nothing/absent (each only
writes a "called but not implemented" log line) rather than failing loudly. -/
theorem getHandlerType_getHandler_ignore_cache :
    (∀ (ld : Loader) (pfx : String),
      Loader.GetHandlerType ld pfx = "" ∧
      Loader.GetHandler ld pfx = .error "doesn't exist") ∧
    (∀ (ld : Loader) (pfx : String) (s : Nat),
      Loader.GetHandlerType (Loader.SetStorage ld pfx s) pfx = "" ∧
      Loader.GetHandler (Loader.SetStorage ld pfx s) pfx = .error "doesn't exist" ∧
      List.lookup pfx (Loader.SetStorage ld pfx s).sto = some s) :=
  ⟨fun _ _ => ⟨rfl, rfl⟩,
   fun ld pfx s => ⟨rfl, rfl, by simp [Loader.SetStorage, List.lookup]⟩⟩

theorem unknownKeys_deleteUnknownFields (o : Obj) :
    (deleteUnknownFields o).UnknownKeys = [] := by
  unfold deleteUnknownFields Obj.UnknownKeys
  rw [List.filter_eq_nil_iff]
  intro a ha
  obtain ⟨kv, hkv, rfl⟩ := List.mem_map.mp ha
  have h2 := (List.mem_filter.mp hkv).2
  simp_all

theorem validate_after_delete (o : Obj) (he : o.errs = []) :
    (deleteUnknownFields o).Validate = none := by
  unfold Obj.Validate
  rw [unknownKeys_deleteUnknownFields]
  simp [deleteUnknownFields, he]

theorem validate_nil (kn : List String) : Obj.Validate ⟨[], kn, []⟩ = none := rfl

theorem validate_singleton_self (p : String) (x : JSON) :
    Obj.Validate ⟨[(p, x)], [p], []⟩ = none := by
  simp [Obj.Validate, Obj.UnknownKeys, List.filter_cons]

theorem trimStorage_storage_filesystem : trimStorage "storage-filesystem" = "filesystem" := by
  decide

/-- Claim C3 (counterexample): a document with an unrecognized top-level
field translates successfully: the `deleteUnknownFields(obj)` call at
main.go line 132 deletes every unconsumed top-level field before the strict
validation, so an unrecognized top-level field is silently dropped rather
than causing a failure. -/
theorem unknown_top_level_field_accepted_cex :
    parseLowLevelConfig (Obj.ofJSON [("unrecognized", .str "x"), ("prefixes", .obj [])]) =
      .ok ⟨[]⟩ := by
  rfl

/-- Claim C3 (amended): strict validation rejects an unconsumed field inside
a `prefixes` entry of `storage-` form, with a ConfigError naming the prefix
and the field (second conjunct); but unrecognized top-level fields (first
conjunct) and unrecognized fields of non-storage `prefixes` entries (third
conjunct) are deleted by the translator itself and silently dropped, so
translation succeeds despite them. -/
theorem strict_validation_policy :
    (∀ extra : List (String × JSON),
      parseLowLevelConfig (Obj.ofJSON (("prefixes", .obj []) :: extra)) = .ok ⟨[]⟩) ∧
    (∀ (p e : String) (A : List (String × JSON)) (v : JSON),
      strStartsWith p "_" = false → strStartsWith e "_" = false →
      e ≠ "handler" → e ≠ "handlerArgs" →
      parseLowLevelConfig (Obj.ofJSON [("prefixes", .obj
        [(p, .obj [("handler", .str "storage-filesystem"),
                   ("handlerArgs", .obj A), (e, v)])])]) =
        .error ("In prefixes[\"" ++ p ++ "\"]: " ++ ("Unknown key \"" ++ e ++ "\""))) ∧
    (∀ (p hnd : String) (extras : List (String × JSON)),
      strStartsWith p "_" = false → trimStorage hnd = hnd →
      parseLowLevelConfig (Obj.ofJSON
        [("prefixes", .obj [(p, .obj (("handler", .str hnd) :: extras))])]) = .ok ⟨[]⟩) := by
  refine ⟨?_, ?_, ?_⟩
  · intro extra
    simp [parseLowLevelConfig, Obj.RequiredObject, Obj.lookupKey, Obj.note, Obj.ofJSON,
      List.lookup, parseLoop, validate_after_delete, validate_nil]
  · intro p e A v hp he h1 h2
    simp [parseLowLevelConfig, Obj.RequiredObject, Obj.RequiredString, Obj.lookupKey,
      Obj.note, Obj.addErr, Obj.ofJSON, List.lookup, parseLoop, parseStep, processEntry,
      hp, he, h1, h2, trimStorage_storage_filesystem, Obj.Validate, Obj.UnknownKeys,
      List.filter_cons]
  · intro p hnd extras hp ht
    simp [parseLowLevelConfig, Obj.RequiredObject, Obj.RequiredString, Obj.lookupKey,
      Obj.note, Obj.addErr, Obj.ofJSON, List.lookup, parseLoop, parseStep, processEntry,
      hp, ht, validate_after_delete, validate_singleton_self]

/-- Claim C3 (witness): the amended strict-validation policy applied to
concrete documents — an extra top-level field is dropped, an extra field in a
storage entry is a named error, an extra field in a non-storage entry is
dropped. -/
theorem strict_validation_policy_witness :
    parseLowLevelConfig (Obj.ofJSON [("prefixes", .obj []), ("ui", .obj [])]) = .ok ⟨[]⟩ ∧
    parseLowLevelConfig (Obj.ofJSON [("prefixes", .obj
      [("/bs/", .obj [("handler", .str "storage-filesystem"),
                      ("handlerArgs", .obj []), ("extraField", .boolean true)])])]) =
      .error ("In prefixes[\"" ++ "/bs/" ++ "\"]: " ++ ("Unknown key \"" ++ "extraField" ++ "\"")) ∧
    parseLowLevelConfig (Obj.ofJSON
      [("prefixes", .obj [("/ui/", .obj [("handler", .str "ui"), ("anything", .num 3)])])]) =
      .ok ⟨[]⟩ :=
  ⟨strict_validation_policy.1 [("ui", .obj [])],
   strict_validation_policy.2.1 "/bs/" "extraField" [] (.boolean true)
     (by decide) (by decide) (by decide) (by decide),
   strict_validation_policy.2.2 "/ui/" "ui" [("anything", .num 3)] (by decide) (by decide)⟩

theorem requiredObject_cons_ne (p k : String) (v : JSON) (l : List (String × JSON))
    (kn er : List String) (hne : (k == p) = false) :
    ∃ child kn2 er2,
      Obj.RequiredObject ⟨(p, v) :: l, kn, er⟩ k = (child, ⟨(p, v) :: l, kn2, er2⟩) ∧
      Obj.RequiredObject ⟨l, kn, er⟩ k = (child, ⟨l, kn2, er2⟩) := by
  unfold Obj.RequiredObject Obj.lookupKey Obj.note Obj.addErr
  simp only [List.lookup, hne]
  cases List.lookup k l with
  | none => exact ⟨_, _, _, rfl, rfl⟩
  | some j => cases j <;> exact ⟨_, _, _, rfl, rfl⟩

theorem parseStep_cons_comment (p k : String) (v : JSON) (l : List (String × JSON))
    (kn er : List String) (res : List (String × StorageConfig))
    (hp : strStartsWith p "_" = true) (hk : strStartsWith k "_" = false) :
    (∃ e, parseStep k ⟨(p, v) :: l, kn, er⟩ res = .error e ∧
          parseStep k ⟨l, kn, er⟩ res = .error e) ∨
    (∃ kn2 er2 res2,
      parseStep k ⟨(p, v) :: l, kn, er⟩ res = .ok (⟨(p, v) :: l, kn2, er2⟩, res2) ∧
      parseStep k ⟨l, kn, er⟩ res = .ok (⟨l, kn2, er2⟩, res2)) := by
  have hne : (k == p) = false := by
    rw [beq_eq_false_iff_ne]
    intro hkp
    subst hkp
    rw [hk] at hp
    exact Bool.noConfusion hp
  obtain ⟨child, kn2, er2, hA, hB⟩ := requiredObject_cons_ne p k v l kn er hne
  cases hpe : processEntry k child res with
  | error e =>
    exact .inl ⟨e, by simp [parseStep, hk, hA, hpe], by simp [parseStep, hk, hB, hpe]⟩
  | ok res2 =>
    exact .inr ⟨kn2, er2, res2,
      by simp [parseStep, hk, hA, hpe], by simp [parseStep, hk, hB, hpe]⟩

theorem parseLoop_cons_comment (p : String) (v : JSON)
    (hp : strStartsWith p "_" = true) (ks : List String) :
    ∀ (l : List (String × JSON)) (kn er : List String)
      (res : List (String × StorageConfig)),
      (∃ e, parseLoop ks ⟨(p, v) :: l, kn, er⟩ res = .error e ∧
            parseLoop ks ⟨l, kn, er⟩ res = .error e) ∨
      (∃ kn2 er2 res2,
        parseLoop ks ⟨(p, v) :: l, kn, er⟩ res = .ok (⟨(p, v) :: l, kn2, er2⟩, res2) ∧
        parseLoop ks ⟨l, kn, er⟩ res = .ok (⟨l, kn2, er2⟩, res2)) := by
  induction ks with
  | nil =>
    intro l kn er res
    exact .inr ⟨kn, er, res, rfl, rfl⟩
  | cons k ks ih =>
    intro l kn er res
    by_cases hk : strStartsWith k "_" = true
    · have h1 : parseLoop (k :: ks) ⟨(p, v) :: l, kn, er⟩ res =
          parseLoop ks ⟨(p, v) :: l, kn, er⟩ res := by
        simp [parseLoop, parseStep, hk]
      have h2 : parseLoop (k :: ks) ⟨l, kn, er⟩ res = parseLoop ks ⟨l, kn, er⟩ res := by
        simp [parseLoop, parseStep, hk]
      rw [h1, h2]
      exact ih l kn er res
    · have hk2 : strStartsWith k "_" = false := by
        revert hk
        cases strStartsWith k "_" <;> simp
      rcases parseStep_cons_comment p k v l kn er res hp hk2 with
        ⟨e, hA, hB⟩ | ⟨kn2, er2, res2, hA, hB⟩
      · exact .inl ⟨e, by simp [parseLoop, hA], by simp [parseLoop, hB]⟩
      · rcases ih l kn2 er2 res2 with ⟨e, h1, h2⟩ | ⟨kn3, er3, res3, h1, h2⟩
        · exact .inl ⟨e, by simp [parseLoop, hA, h1], by simp [parseLoop, hB, h2]⟩
        · exact .inr ⟨kn3, er3, res3,
            by simp [parseLoop, hA, h1], by simp [parseLoop, hB, h2]⟩

theorem validate_cons_comment (p : String) (v : JSON) (l : List (String × JSON))
    (kn er : List String) (hp : strStartsWith p "_" = true) :
    Obj.Validate ⟨(p, v) :: l, kn, er⟩ = Obj.Validate ⟨l, kn, er⟩ := by
  have aux : ∀ rest : List String,
      List.filter (fun k => !(strStartsWith k "_"))
        (List.filter (fun k => !(kn.contains k)) (p :: rest)) =
      List.filter (fun k => !(strStartsWith k "_"))
        (List.filter (fun k => !(kn.contains k)) rest) := by
    intro rest
    rw [List.filter_cons]
    by_cases hc : kn.contains p = true
    · have hm : p ∈ kn := by simpa using hc
      simp [hm]
    · have hm : p ∉ kn := by simpa using hc
      simp [hm, hp]
  unfold Obj.Validate Obj.UnknownKeys
  rw [List.map_cons, aux (List.map Prod.fst l)]

theorem parseLoop_skip (p : String) (hp : strStartsWith p "_" = true)
    (ks : List String) (pref : Obj) (res : List (String × StorageConfig)) :
    parseLoop (p :: ks) pref res = parseLoop ks pref res := by
  simp [parseLoop, parseStep, hp]

theorem processEntry_res (k : String) (handler : Obj)
    (res res2 : List (String × StorageConfig))
    (h : processEntry k handler res = .ok res2) :
    res2 = res ∨ ∃ sc, res2 = res ++ [(k, sc)] := by
  simp only [processEntry] at h
  by_cases hc :
      trimStorage (handler.RequiredString "handler").1 = (handler.RequiredString "handler").1
  · rw [if_pos hc] at h
    split at h
    · exact absurd h (by simp)
    · left
      injection h with h2
      exact h2.symm
  · rw [if_neg hc] at h
    split at h
    · exact absurd h (by simp)
    · right
      injection h with h2
      exact ⟨_, h2.symm⟩

theorem parseStep_res (k : String) (pref pref2 : Obj)
    (res res2 : List (String × StorageConfig))
    (h : parseStep k pref res = .ok (pref2, res2)) :
    res2 = res ∨ (strStartsWith k "_" = false ∧ ∃ sc, res2 = res ++ [(k, sc)]) := by
  simp only [parseStep] at h
  by_cases hk : strStartsWith k "_" = true
  · rw [if_pos hk] at h
    injection h with h2
    left
    exact (congrArg Prod.snd h2).symm
  · rw [if_neg hk] at h
    split at h
    · exact absurd h (by simp)
    · next r heq =>
      injection h with h2
      have hr : r = res2 := congrArg Prod.snd h2
      rw [hr] at heq
      rcases processEntry_res k _ res res2 heq with h3 | ⟨sc, h3⟩
      · exact .inl h3
      · exact .inr ⟨by revert hk; cases strStartsWith k "_" <;> simp, sc, h3⟩

theorem parseLoop_res (ks : List String) :
    ∀ (pref pref2 : Obj) (res res2 : List (String × StorageConfig)),
      parseLoop ks pref res = .ok (pref2, res2) →
      ∀ kv ∈ res2, kv ∈ res ∨ strStartsWith kv.1 "_" = false := by
  induction ks with
  | nil =>
    intro pref pref2 res res2 h kv hkv
    simp only [parseLoop] at h
    injection h with h2
    have h3 : res = res2 := congrArg Prod.snd h2
    rw [← h3] at hkv
    exact .inl hkv
  | cons k ks ih =>
    intro pref pref2 res res2 h kv hkv
    simp only [parseLoop] at h
    split at h
    · exact absurd h (by simp)
    · next st heq =>
      rcases ih st.1 pref2 st.2 res2 h kv hkv with hin | hnc
      · rcases parseStep_res k pref st.1 res st.2 heq with hsame | ⟨hk, sc, hcons⟩
        · rw [hsame] at hin
          exact .inl hin
        · rw [hcons] at hin
          rcases List.mem_append.mp hin with h1 | h2
          · exact .inl h1
          · have : kv = (k, sc) := by simpa using h2
            rw [this]
            exact .inr hk
      · exact .inr hnc

/-- Claim C8: a key `p` under `prefixes` that starts with `_` is skipped
entirely: translating a document whose `prefixes` object carries the entry
`(p, v)` — with `v` arbitrary, so possibly malformed (not an object, missing
`handler`, ...) — yields exactly the same result as translating the document
without that entry, so the entry's value is never read or validated and
translation succeeds whenever it would succeed without it; and no comment key
ever appears in a successful translation's `Prefixes` (second conjunct). -/
theorem comment_prefixes_skipped (top l : List (String × JSON)) (p : String) (v : JSON)
    (hp : strStartsWith p "_" = true) :
    parseLowLevelConfig (Obj.ofJSON (("prefixes", .obj ((p, v) :: l)) :: top)) =
      parseLowLevelConfig (Obj.ofJSON (("prefixes", .obj l) :: top)) ∧
    (∀ c, parseLowLevelConfig (Obj.ofJSON (("prefixes", .obj ((p, v) :: l)) :: top)) = .ok c →
      ∀ kv ∈ c.Prefixes, strStartsWith kv.1 "_" = false) := by
  constructor
  · unfold parseLowLevelConfig
    simp only [Obj.RequiredObject, Obj.lookupKey, Obj.note, Obj.ofJSON, List.lookup,
      beq_self_eq_true, List.map_cons]
    rw [parseLoop_skip p hp]
    rcases parseLoop_cons_comment p v hp (l.map Prod.fst) l [] [] [] with
      ⟨e, hA, hB⟩ | ⟨kn2, er2, res2, hA, hB⟩
    · rw [hA, hB]
    · rw [hA, hB]
      simp only [validate_cons_comment p v l kn2 er2 hp]
      rw [validate_after_delete _ rfl, validate_after_delete _ rfl]
  · intro c hok kv hkv
    unfold parseLowLevelConfig at hok
    simp only [Obj.RequiredObject, Obj.lookupKey, Obj.note, Obj.ofJSON, List.lookup,
      beq_self_eq_true, List.map_cons] at hok
    rw [parseLoop_skip p hp] at hok
    rcases hloop : parseLoop (l.map Prod.fst) ⟨(p, v) :: l, [], []⟩ [] with e | st
    · rw [hloop] at hok
      exact absurd hok (by simp)
    · rw [hloop] at hok
      split at hok
      · next e2 heq2 => exact absurd heq2 (by simp)
      · next st2 heq2 =>
        have hst : st = st2 := by injection heq2
        subst hst
        split at hok
        · exact absurd hok (by simp)
        · split at hok
          · exact absurd hok (by simp)
          · injection hok with h2
            have hres : c.Prefixes = st.2 := by rw [← h2]
            rw [hres] at hkv
            rcases parseLoop_res (l.map Prod.fst) ⟨(p, v) :: l, [], []⟩ st.1 [] st.2
                (by rw [hloop]) kv hkv with hin | hnc
            · exact absurd hin (List.not_mem_nil kv)
            · exact hnc

/-- Claim C8 (witness): skipping applied to a concrete document whose comment
entry has a malformed value (not an object). -/
theorem comment_prefixes_skipped_witness :
    parseLowLevelConfig (Obj.ofJSON
      [("prefixes", .obj [("_comment", .str "example, not validated"),
                          ("/bs/", .obj [("handler", .str "storage-filesystem"),
                                         ("handlerArgs", .obj [])])])]) =
      parseLowLevelConfig (Obj.ofJSON
        [("prefixes", .obj [("/bs/", .obj [("handler", .str "storage-filesystem"),
                                           ("handlerArgs", .obj [])])])]) :=
  (comment_prefixes_skipped []
    [("/bs/", .obj [("handler", .str "storage-filesystem"), ("handlerArgs", .obj [])])]
    "_comment" (.str "example, not validated") (by decide)).1
